import Mathlib

/-!
# ChatOS-v2.0 trading dashboard: verification of the specified core

Shallow embedding of the algorithmic core of the ChatOS-v2.0 trading
dashboard: the pending-chat-message store (`chat-integration.ts`), the
realtime feed aggregator, the order-book panel state machine
(`order-book.tsx`), the aggr analytics endpoint (`getAggrStats` and its
helpers), and the chart renderer transforms and Ichimoku indicator
pipeline (`trading-chart.tsx`).  JavaScript numbers are idealised as
rationals; nullable values become `Option`; the browser session storage
and the data-directory file system become explicit state arguments.
-/

/-- Trade side as in the feed and aggr data records. -/
inductive TradeSide
  | buy
  | sell
deriving DecidableEq, Repr

/-! ## Pending chat message store (`src/sandbox-ui/src/lib/chat-integration.ts`)

The store is the single `sessionStorage` slot under the key
`pending_chat_message`, modelled as `Option String` (`none` = no entry).
-/

/-- Embedding of `setPendingChatMessage`: `sessionStorage.setItem` replaces
the slot with the message unconditionally. -/
def setPendingChatMessage (message : String) (_store : Option String) : Option String :=
  some message

/-- Embedding of `consumePendingChatMessage`: reads the slot; the item is
removed only when the read value is truthy (`if (message)`), so the empty
string is returned but left in place.  Returns the value handed back to the
caller paired with the store afterwards. -/
def consumePendingChatMessage (store : Option String) : Option String × Option String :=
  match store with
  | none => (none, none)
  | some message => (some message, if message = "" then some message else none)

/-- Embedding of `hasPendingChatMessage`: `getItem(...) !== null`. -/
def hasPendingChatMessage (store : Option String) : Bool :=
  store.isSome

/-! ## Realtime feed aggregator

Modelled from the spec: the module `@/lib/trading/realtime-ws` (hook
`useRealtime` and the `realtimeWS` connection manager) is not part of the
source tree; its observable state transitions are taken from section 4.4 of
the specification: trades accumulate notional by side, classification uses
two static thresholds, and on connection loss the stats are preserved and
accumulation resumes after reconnect.
-/

/-- Modelled from the spec: the static large-trade notional threshold of the
feed classifier (section 8 test table, large = 500000). -/
def LARGE_TRADE_THRESHOLD : ℚ := 500000

/-- Modelled from the spec: the static whale notional threshold of the feed
classifier (section 8 test table, whale = 1000000). -/
def WHALE_TRADE_THRESHOLD : ℚ := 1000000

/-- FeedStats record of the realtime aggregator (spec section 3). -/
structure FeedStats where
  buyVolume : ℚ
  sellVolume : ℚ
  largeTradesCount : Nat
  liquidationsCount : Nat
deriving DecidableEq, Repr

/-- Observable state of the realtime feed aggregator. -/
structure FeedState where
  connected : Bool
  stats : FeedStats
deriving DecidableEq, Repr

/-- Events reaching the realtime feed aggregator. -/
inductive FeedEvent
  | disconnect
  | reconnect
  | trade (side : TradeSide) (price amount : ℚ)
  | liquidation
deriving DecidableEq, Repr

/-- Modelled from the spec: accumulating one trade into the feed stats.
Notional (price times amount) is added to the volume of its side, and the
large-trade counter advances when the notional exceeds the large threshold. -/
def applyFeedTrade (st : FeedStats) (side : TradeSide) (notional : ℚ) : FeedStats :=
  { st with
    buyVolume := if side = TradeSide.buy then st.buyVolume + notional else st.buyVolume
    sellVolume := if side = TradeSide.buy then st.sellVolume else st.sellVolume + notional
    largeTradesCount :=
      if LARGE_TRADE_THRESHOLD < notional then st.largeTradesCount + 1
      else st.largeTradesCount }

/-- Modelled from the spec: the aggregator transition function.  Connection
loss and reconnection toggle `connected` and leave the accumulated stats
untouched (section 4.4: preserve last-known stats, resume accumulation). -/
def stepFeed (s : FeedState) : FeedEvent → FeedState
  | FeedEvent.disconnect => { s with connected := false }
  | FeedEvent.reconnect => { s with connected := true }
  | FeedEvent.trade side price amount =>
      { s with stats := applyFeedTrade s.stats side (price * amount) }
  | FeedEvent.liquidation =>
      { s with stats :=
          { s.stats with liquidationsCount := s.stats.liquidationsCount + 1 } }

/-! ## Order book panel (`src/sandbox-ui/src/components/trading/chart/order-book.tsx`) -/

/-- Order book level after running-total processing. -/
structure OrderBookLevel where
  price : ℚ
  size : ℚ
  total : ℚ
deriving DecidableEq, Repr

/-- Processed order book held in component state. -/
structure OrderBookData where
  asks : List OrderBookLevel
  bids : List OrderBookLevel
  timestamp : ℚ
deriving DecidableEq, Repr

/-- Raw price level as delivered by the market endpoint. -/
structure RawLevel where
  price : ℚ
  size : ℚ
deriving DecidableEq, Repr

/-- Number of levels kept on each side (`LEVELS_TO_SHOW`). -/
def LEVELS_TO_SHOW : Nat := 6

/-- Polling period of the order book effect (`setInterval(fetchOrderBook, 2000)`). -/
def ORDER_BOOK_REFRESH_MS : Nat := 2000

/-- Running-total accumulation over the sliced levels (the `map` with the
mutable `askTotal`/`bidTotal` accumulators). -/
def runningTotals (acc : ℚ) : List RawLevel → List OrderBookLevel
  | [] => []
  | l :: ls => ⟨l.price, l.size, acc + l.size⟩ :: runningTotals (acc + l.size) ls

/-- Component state of the `OrderBook` panel. -/
structure PanelState where
  orderbook : Option OrderBookData
  error : Option String
  loading : Bool
deriving DecidableEq, Repr

/-- Result of one `fetchOrderBook` round trip; a response carrying an
`error` field is thrown and lands in the `fail` case like a network error. -/
inductive FetchOutcome
  | ok (asks bids : List RawLevel) (timestamp : Option ℚ)
  | fail (msg : String)
deriving DecidableEq, Repr

/-- Effective timestamp: `data.timestamp || Date.now()` (zero and absent
values are falsy and replaced by the current time). -/
def effectiveTimestamp (ts : Option ℚ) (now : ℚ) : ℚ :=
  match ts with
  | none => now
  | some t => if t = 0 then now else t

/-- Embedding of one `fetchOrderBook` completion: on success the processed
book replaces the state and the error clears; on failure only the error
string is set.  Both branches end with `setLoading(false)` (the `finally`). -/
def fetchOrderBookApply (s : PanelState) (r : FetchOutcome) (now : ℚ) : PanelState :=
  match r with
  | FetchOutcome.ok asks bids ts =>
      { orderbook := some
          { asks := (runningTotals 0 (asks.take LEVELS_TO_SHOW)).reverse
            bids := runningTotals 0 (bids.take LEVELS_TO_SHOW)
            timestamp := effectiveTimestamp ts now }
        error := none
        loading := false }
  | FetchOutcome.fail msg =>
      { s with error := some msg, loading := false }

/-- The spinner branch of the render (`loading && !orderbook`). -/
def showsLoadingView (s : PanelState) : Bool :=
  s.loading && s.orderbook.isNone

/-- The full-screen error branch of the render: reached only past the
spinner branch, when `error && !orderbook`. -/
def showsErrorView (s : PanelState) : Bool :=
  !(s.loading && s.orderbook.isNone) && s.error.isSome && s.orderbook.isNone

/-! ## Aggr analytics endpoint (route handler in the repository, `getAggrStats` and helpers)

The data directory is abstracted as `FileSys`: `dirFiles` is the result of
`fs.readdir(AGGR_DATA_DIR)` (`none` = the `readdir` rejected and the
`.catch(() => [])` fires), and `fileContent` is `fs.readFile` per file name
(`none` = unreadable).  JSON line parsing is a parameter, since its
semantics live in the JavaScript runtime.
-/

/-- Abstract view of the aggr data directory. -/
structure FileSys where
  dirFiles : Option (List String)
  fileContent : String → Option String

/-- Trade record of the `large_trades_*.jsonl` files (interface `LargeTrade`). -/
structure LargeTrade where
  timestamp : String
  exchange : String
  symbol : String
  side : TradeSide
  price : ℚ
  size : ℚ
  value_usd : ℚ
  is_large_trade : Bool
deriving DecidableEq, Repr

/-- Side of a liquidation record. -/
inductive LiqSide
  | long
  | short
deriving DecidableEq, Repr

/-- Liquidation record of the `liquidations_*.jsonl` files. -/
structure Liquidation where
  timestamp : String
  exchange : String
  symbol : String
  side : LiqSide
  price : ℚ
  size : ℚ
  value_usd : ℚ
deriving DecidableEq, Repr

/-- Aggregated stats record returned by `getAggrStats` (interface `AggrStats`). -/
structure AggrStats where
  totalTrades : Nat
  totalVolumeUsd : ℚ
  buyVolume : ℚ
  sellVolume : ℚ
  largeTradesCount : Nat
  whaleTradesCount : Nat
  liquidationsCount : Nat
  lastUpdated : String
deriving DecidableEq, Repr

/-- Non-blank lines of a JSONL payload: `split('\n').filter(line => line.trim())`. -/
def jsonlLines (content : String) : List String :=
  (content.splitOn "\n").filter (fun line => line.trim ≠ "")

/-- Embedding of `parseJsonlFile`: an unreadable file, or any line on which
`JSON.parse` throws, yields the empty list (the surrounding `try`/`catch`). -/
def parseJsonlFile (parse : String → Option α) (fs : FileSys) (path : String) : List α :=
  match fs.fileContent path with
  | none => []
  | some content =>
      match (jsonlLines content).mapM parse with
      | some records => records
      | none => []

/-- Embedding of `countLines`: non-blank line count, zero on read failure. -/
def countLines (fs : FileSys) (path : String) : Nat :=
  match fs.fileContent path with
  | none => 0
  | some content => (jsonlLines content).length

/-- The initial stats record built at the top of `getAggrStats` (volumes
zero, counters taken from line counts of the latest files). -/
def baseStats (largeCount liqCount : Nat) (now : String) : AggrStats :=
  { totalTrades := 0
    totalVolumeUsd := 0
    buyVolume := 0
    sellVolume := 0
    largeTradesCount := largeCount
    whaleTradesCount := 0
    liquidationsCount := liqCount
    lastUpdated := now }

/-- One iteration of the `for (const trade of trades)` loop in
`getAggrStats`: the notional joins the total and its side volume, and the
whale counter advances when `trade.value_usd >= 500000`. -/
def stepTrade (s : AggrStats) (t : LargeTrade) : AggrStats :=
  { s with
    totalVolumeUsd := s.totalVolumeUsd + t.value_usd
    buyVolume := if t.side = TradeSide.buy then s.buyVolume + t.value_usd else s.buyVolume
    sellVolume := if t.side = TradeSide.buy then s.sellVolume else s.sellVolume + t.value_usd
    whaleTradesCount :=
      if 500000 ≤ t.value_usd then s.whaleTradesCount + 1 else s.whaleTradesCount }

/-- Total notional of the buy-side trades of a list. -/
def buyNotional : List LargeTrade → ℚ
  | [] => 0
  | t :: ts => (if t.side = TradeSide.buy then t.value_usd else 0) + buyNotional ts

/-- Total notional of the sell-side trades of a list. -/
def sellNotional : List LargeTrade → ℚ
  | [] => 0
  | t :: ts => (if t.side = TradeSide.buy then 0 else t.value_usd) + sellNotional ts

/-- Number of trades whose notional reaches the 500000 threshold of the
`getAggrStats` loop. -/
def whaleCountOf : List LargeTrade → Nat
  | [] => 0
  | t :: ts => (if 500000 ≤ t.value_usd then 1 else 0) + whaleCountOf ts

/-- The stats produced from the parsed trades of the latest file: the loop
above followed by `stats.largeTradesCount = trades.length`. -/
def statsFromTrades (trades : List LargeTrade) (largeCount liqCount : Nat)
    (now : String) : AggrStats :=
  { trades.foldl stepTrade (baseStats largeCount liqCount now) with
    largeTradesCount := trades.length }

/-- Embedding of `getAggrStats`: list the directory (empty on failure),
split into trade and liquidation files by prefix, seed the counters from
the latest files, then fold the parsed trades of the latest trade file. -/
def getAggrStats (fs : FileSys) (parse : String → Option LargeTrade)
    (now : String) : AggrStats :=
  let files := fs.dirFiles.getD []
  let tradeFiles := files.filter (fun f => f.startsWith "large_trades_")
  let liqFiles := files.filter (fun f => f.startsWith "liquidations_")
  let largeCount := match tradeFiles.getLast? with
    | some f => countLines fs f
    | none => 0
  let liqCount := match liqFiles.getLast? with
    | some f => countLines fs f
    | none => 0
  match tradeFiles.getLast? with
  | none => baseStats largeCount liqCount now
  | some latest => statsFromTrades (parseJsonlFile parse fs latest) largeCount liqCount now

/-- Insertion step for the descending sort by timestamp key
(`sort((a, b) => keyB - keyA)`). -/
def insertDescBy (key : α → Int) (x : α) : List α → List α
  | [] => [x]
  | y :: ys => if key y ≤ key x then x :: y :: ys else y :: insertDescBy key x ys

/-- Descending sort by an integer key, modelling the timestamp sort of the
list endpoints. -/
def sortDescBy (key : α → Int) : List α → List α
  | [] => []
  | x :: xs => insertDescBy key x (sortDescBy key xs)

/-- Insertion step for the ascending string sort (`Array.prototype.sort`). -/
def insertAsc (x : String) : List String → List String
  | [] => [x]
  | y :: ys => if x ≤ y then x :: y :: ys else y :: insertAsc x ys

/-- Ascending lexicographic sort of file names. -/
def sortStringsAsc : List String → List String
  | [] => []
  | x :: xs => insertAsc x (sortStringsAsc xs)

/-- JavaScript `String.prototype.includes`. -/
def strIncludes (s pat : String) : Bool :=
  if pat = "" then true else 2 ≤ (s.splitOn pat).length

/-- The accumulation loop shared by the list endpoints: walk the files,
stopping once the accumulator reaches the limit, appending each parsed
file. -/
def collectJsonl (fs : FileSys) (parse : String → Option α) (limit : Nat) :
    List String → List α → List α
  | [], acc => acc
  | f :: rest, acc =>
      if limit ≤ acc.length then acc
      else collectJsonl fs parse limit rest (acc ++ parseJsonlFile parse fs f)

/-- Embedding of `getLargeTrades`: newest files first, collect up to the
limit, filter by symbol, sort by timestamp descending, truncate.  `dateMs`
abstracts `new Date(...).getTime()`. -/
def getLargeTrades (fs : FileSys) (parse : String → Option LargeTrade)
    (dateMs : String → Int) (limit : Nat) (symbol : Option String) : List LargeTrade :=
  let files :=
    (sortStringsAsc ((fs.dirFiles.getD []).filter (fun f => f.startsWith "large_trades_"))).reverse
  let allTrades := collectJsonl fs parse limit files []
  let filtered := match symbol with
    | some sym =>
        allTrades.filter (fun t => strIncludes t.symbol ((sym.replace "/" "").replace "USDT" ""))
    | none => allTrades
  (sortDescBy (fun t => dateMs t.timestamp) filtered).take limit

/-- Embedding of `getLiquidations`, same shape as `getLargeTrades`. -/
def getLiquidations (fs : FileSys) (parse : String → Option Liquidation)
    (dateMs : String → Int) (limit : Nat) (symbol : Option String) : List Liquidation :=
  let files :=
    (sortStringsAsc ((fs.dirFiles.getD []).filter (fun f => f.startsWith "liquidations_"))).reverse
  let allLiqs := collectJsonl fs parse limit files []
  let filtered := match symbol with
    | some sym =>
        allLiqs.filter (fun l => strIncludes l.symbol ((sym.replace "/" "").replace "USDT" ""))
    | none => allLiqs
  (sortDescBy (fun l => dateMs l.timestamp) filtered).take limit

/-- Embedding of `getTrainingExamples`: collect from the training files and
truncate; examples stay unparsed records of an arbitrary type. -/
def getTrainingExamples (fs : FileSys) (parse : String → Option α) (limit : Nat) : List α :=
  let files :=
    (sortStringsAsc ((fs.dirFiles.getD []).filter (fun f => f.startsWith "aggr_training_"))).reverse
  (collectJsonl fs parse limit files []).take limit

/-! ## Candles and the Ichimoku indicator

The candle record is shared by the chart and the indicator engine.  The
functions `calculateIchimoku` and `calculateFutureCloud` live in
`@/lib/trading/indicators/ichimoku`, which is not part of the source tree;
they are modelled from the spec (section 4.1).
-/

/-- Candle record (the field `open` of the source is a reserved word here
and becomes `openPrice`). -/
structure Candle where
  time : ℚ
  openPrice : ℚ
  high : ℚ
  low : ℚ
  close : ℚ
  volume : ℚ
deriving DecidableEq, Repr

/-- A flat candle: open, high, low and close all equal. -/
def flatCandle (p : ℚ) : Candle :=
  { time := 0, openPrice := p, high := p, low := p, close := p, volume := 0 }

/-- Modelled from the spec: the four window lengths of the Ichimoku
configuration (conversion, base, leading-span-B, displacement). -/
structure IchimokuConfig where
  conversionPeriods : Nat
  basePeriods : Nat
  spanBPeriods : Nat
  displacement : Nat
deriving DecidableEq, Repr

/-- Modelled from the spec: the canonical 9/26/52/26 default configuration. -/
def DEFAULT_ICHIMOKU_CONFIG : IchimokuConfig :=
  { conversionPeriods := 9, basePeriods := 26, spanBPeriods := 52, displacement := 26 }

/-- Cloud colour of an Ichimoku point. -/
inductive CloudColor
  | bullish
  | bearish
deriving DecidableEq, Repr

/-- Per-index Ichimoku output record; fields are nullable until enough
history exists. -/
structure IchimokuPoint where
  tenkanSen : Option ℚ
  kijunSen : Option ℚ
  senkouSpanA : Option ℚ
  senkouSpanB : Option ℚ
  chikouSpan : Option ℚ
  cloudTop : Option ℚ
  cloudBottom : Option ℚ
  cloudColor : Option CloudColor
deriving DecidableEq, Repr

/-- Projected cloud point beyond the last candle. -/
structure FutureCloudPoint where
  senkouSpanA : Option ℚ
  senkouSpanB : Option ℚ
  cloudColor : Option CloudColor
deriving DecidableEq, Repr

/-- Values of a candle component over the window of length `w` ending at
index `i` (indices `i - w + 1` through `i`). -/
def windowVals (f : Candle → ℚ) (candles : List Candle) (i w : Nat) : List ℚ :=
  ((candles.take (i + 1)).drop (i + 1 - w)).map f

/-- Maximum of a list of rationals, `none` on the empty list. -/
def listMaxQ : List ℚ → Option ℚ
  | [] => none
  | x :: xs => some (xs.foldl max x)

/-- Minimum of a list of rationals, `none` on the empty list. -/
def listMinQ : List ℚ → Option ℚ
  | [] => none
  | x :: xs => some (xs.foldl min x)

/-- Modelled from the spec: the rolling midpoint `(max(high, window) +
min(low, window)) / 2`, undefined while `i < w - 1`. -/
def rollingMid (candles : List Candle) (i w : Nat) : Option ℚ :=
  if w ≤ i + 1 then
    match listMaxQ (windowVals Candle.high candles i w),
        listMinQ (windowVals Candle.low candles i w) with
    | some hi, some lo => some ((hi + lo) / 2)
    | _, _ => none
  else none

/-- Modelled from the spec: the Ichimoku point at index `i` — tenkan and
kijun rolling midpoints, span A as their mean, span B as the long-window
midpoint, chikou as the close, and the cloud fields as max, min and
tie-bullish comparison of the two spans. -/
def mkIchimokuPoint (candles : List Candle) (cfg : IchimokuConfig) (i : Nat) : IchimokuPoint :=
  let tenkan := rollingMid candles i cfg.conversionPeriods
  let kijun := rollingMid candles i cfg.basePeriods
  let spanA := match tenkan, kijun with
    | some t, some k => some ((t + k) / 2)
    | _, _ => none
  let spanB := rollingMid candles i cfg.spanBPeriods
  { tenkanSen := tenkan
    kijunSen := kijun
    senkouSpanA := spanA
    senkouSpanB := spanB
    chikouSpan := (candles.get? i).map Candle.close
    cloudTop := match spanA, spanB with
      | some a, some b => some (max a b)
      | _, _ => none
    cloudBottom := match spanA, spanB with
      | some a, some b => some (min a b)
      | _, _ => none
    cloudColor := match spanA, spanB with
      | some a, some b => some (if b ≤ a then CloudColor.bullish else CloudColor.bearish)
      | _, _ => none }

/-- Modelled from the spec: `calculateIchimoku` — one point per candle
index, empty when the history is shorter than the leading-span-B window. -/
def calculateIchimoku (candles : List Candle) (cfg : IchimokuConfig) : List IchimokuPoint :=
  if candles.length < cfg.spanBPeriods then []
  else (List.range candles.length).map (mkIchimokuPoint candles cfg)

/-- Modelled from the spec: `calculateFutureCloud` — for the `displacement`
slots beyond the last candle, the forward-shifted spans computed from
currently known highs and lows only. -/
def calculateFutureCloud (candles : List Candle) (cfg : IchimokuConfig) : List FutureCloudPoint :=
  if candles.length < cfg.spanBPeriods then []
  else
    (List.range cfg.displacement).map (fun j =>
      let p := mkIchimokuPoint candles cfg (candles.length - cfg.displacement + j)
      { senkouSpanA := p.senkouSpanA
        senkouSpanB := p.senkouSpanB
        cloudColor := p.cloudColor })

/-! ## Trading chart (`src/sandbox-ui/src/components/trading/chart/trading-chart.tsx`) -/

/-- Embedding of the `ichimokuData` memo: `if (!showIchimoku ||
chartCandles.length < 52) return []`, otherwise the indicator output at the
default configuration. -/
def ichimokuDataMemo (showIchimoku : Bool) (chartCandles : List Candle) : List IchimokuPoint :=
  if showIchimoku = false ∨ chartCandles.length < 52 then []
  else calculateIchimoku chartCandles DEFAULT_ICHIMOKU_CONFIG

/-- Embedding of the `futureCloud` memo, guarded exactly like `ichimokuData`. -/
def futureCloudMemo (showIchimoku : Bool) (chartCandles : List Candle) : List FutureCloudPoint :=
  if showIchimoku = false ∨ chartCandles.length < 52 then []
  else calculateFutureCloud chartCandles DEFAULT_ICHIMOKU_CONFIG

/-- Top offset of the plot area (`chartPadding.top`). -/
def chartPaddingTop : ℚ := 20

/-- Left offset of the plot area (`chartPadding.left`). -/
def chartPaddingLeft : ℚ := 20

/-- Right offset of the plot area (`chartPadding.right`). -/
def chartPaddingRight : ℚ := 80

/-- Plot width: `width - chartPadding.left - chartPadding.right`. -/
def chartWidthOf (width : ℚ) : ℚ :=
  width - chartPaddingLeft - chartPaddingRight

/-- JavaScript truthiness guard of the `allPrices.push` calls: a nullable
value joins the list only when present and non-zero. -/
def truthyPrice : Option ℚ → List ℚ
  | none => []
  | some v => if v = 0 then [] else [v]

/-- The `allPrices` array: highs and lows of every candle, widened by the
truthy indicator and future-cloud values when indicators are shown. -/
def allPricesOf (candles : List Candle) (showIchimoku : Bool)
    (ichimokuData : List IchimokuPoint) (futureCloud : List FutureCloudPoint) : List ℚ :=
  (candles.flatMap (fun c => [c.high, c.low])) ++
    (if showIchimoku ∧ ichimokuData ≠ [] then
      (ichimokuData.flatMap (fun p =>
        truthyPrice p.cloudTop ++ truthyPrice p.cloudBottom ++
          truthyPrice p.tenkanSen ++ truthyPrice p.kijunSen)) ++
        (futureCloud.flatMap (fun fc =>
          truthyPrice fc.senkouSpanA ++ truthyPrice fc.senkouSpanB))
    else [])

/-- Embedding of the price-domain computation of the draw effect:
`minPrice` over the positive prices, `maxPrice` over all prices, padding of
one tenth of the range on each end, and the padded bounds with their
difference.  `none` when either extremum does not exist. -/
def priceEnvOf (candles : List Candle) (showIchimoku : Bool)
    (ichimokuData : List IchimokuPoint) (futureCloud : List FutureCloudPoint) :
    Option (ℚ × ℚ × ℚ) :=
  let allPrices := allPricesOf candles showIchimoku ichimokuData futureCloud
  match listMinQ (allPrices.filter (fun p => 0 < p)), listMaxQ allPrices with
  | some minPrice, some maxPrice =>
      let priceRange := maxPrice - minPrice
      let padding := priceRange * (1 / 10)
      let chartMinPrice := minPrice - padding
      let chartMaxPrice := maxPrice + padding
      some (chartMinPrice, chartMaxPrice, chartMaxPrice - chartMinPrice)
  | _, _ => none

/-- Embedding of `priceToY` (rational division is total, so a zero
`chartPriceRange` collapses every price onto `chartPadding.top`). -/
def priceToY (chartMaxPrice chartPriceRange chartHeight price : ℚ) : ℚ :=
  chartPaddingTop + ((chartMaxPrice - price) / chartPriceRange) * chartHeight

/-- Total bar slots: `chartCandles.length + (showIchimoku ? 26 : 0)`. -/
def totalBarsOf (candles : List Candle) (showIchimoku : Bool) : Nat :=
  candles.length + (if showIchimoku then 26 else 0)

/-- Horizontal pitch of one bar: `chartWidth / totalBars`. -/
def candleSpacingOf (width : ℚ) (totalBars : Nat) : ℚ :=
  chartWidthOf width / totalBars

/-- Embedding of `indexToX`. -/
def indexToX (width : ℚ) (totalBars : Nat) (index : Nat) : ℚ :=
  chartPaddingLeft + index * candleSpacingOf width totalBars +
    candleSpacingOf width totalBars / 2

/-- Scene description of one pass of the draw effect: which overlay
primitives and candle shapes are emitted, index plus colour per cloud rect
and index plus bullishness per candle body. -/
structure RenderPlan where
  futureCloudRects : List (Nat × CloudColor)
  cloudRects : List (Nat × CloudColor)
  tenkanDrawn : Bool
  kijunDrawn : Bool
  chikouDrawn : Bool
  candleShapes : List (Nat × Bool)
deriving DecidableEq, Repr

/-- Embedding of the draw effect as a scene description: the effect bails
out on an empty candle list; every Ichimoku layer sits inside
`if (showIchimoku && ichimokuData.length > 0)`, cloud rects skip indices
whose spans are null, and each candle yields one body whose colour is
`close >= open`. -/
def drawChart (candles : List Candle) (showIchimoku : Bool)
    (ichimokuData : List IchimokuPoint) (futureCloud : List FutureCloudPoint) :
    Option RenderPlan :=
  if candles.isEmpty then none
  else
    let overlaysOn := showIchimoku ∧ ichimokuData ≠ []
    some
      { futureCloudRects :=
          if overlaysOn then
            futureCloud.enum.filterMap (fun p =>
              match p.2.senkouSpanA, p.2.senkouSpanB with
              | some _, some _ =>
                  some (candles.length + p.1, p.2.cloudColor.getD CloudColor.bearish)
              | _, _ => none)
          else []
        cloudRects :=
          if overlaysOn then
            ichimokuData.enum.filterMap (fun p =>
              match p.2.cloudTop, p.2.cloudBottom with
              | some _, some _ => some (p.1, p.2.cloudColor.getD CloudColor.bearish)
              | _, _ => none)
          else []
        tenkanDrawn := decide overlaysOn
        kijunDrawn := decide overlaysOn
        chikouDrawn := decide overlaysOn
        candleShapes := candles.enum.map (fun p => (p.1, decide (p.2.openPrice ≤ p.2.close))) }

/-! ## Concrete inputs used by witnesses and counterexamples -/

/-- Three flat candles, a history far below the 52-candle minimum. -/
def demoThreeCandles : List Candle := List.replicate 3 (flatCandle 100)

/-- One candle spanning prices 90 to 110. -/
def demoRangeCandle : Candle :=
  { time := 0, openPrice := 100, high := 110, low := 90, close := 105, volume := 1 }

/-- Small Ichimoku configuration for witness evaluation. -/
def demoCfg : IchimokuConfig :=
  { conversionPeriods := 2, basePeriods := 3, spanBPeriods := 4, displacement := 2 }

/-- Four flat candles, enough history for `demoCfg`. -/
def demoFlat4 : List Candle := List.replicate 4 (flatCandle 100)

/-- The fully computed Ichimoku point of `demoFlat4` at its last index. -/
def demoPoint3 : IchimokuPoint := mkIchimokuPoint demoFlat4 demoCfg 3

/-- A trade record carrying only a side and a notional. -/
def demoTrade (side : TradeSide) (v : ℚ) : LargeTrade :=
  { timestamp := "", exchange := "", symbol := "", side := side,
    price := 0, size := 0, value_usd := v, is_large_trade := true }

/-- The spec test vector: notionals 100, 600000 and 1200000. -/
def demoNotionalTrades : List LargeTrade :=
  [demoTrade TradeSide.buy 100, demoTrade TradeSide.buy 600000,
    demoTrade TradeSide.sell 1200000]

/-- A data directory whose listing fails and whose files are unreadable. -/
def fsEmpty : FileSys := { dirFiles := none, fileContent := fun _ => none }

/-- An order book already fetched successfully. -/
def demoOrderBook : OrderBookData := { asks := [], bids := [], timestamp := 1 }

/-- Panel state holding `demoOrderBook` with no error. -/
def demoPanel : PanelState :=
  { orderbook := some demoOrderBook, error := none, loading := false }

/-- Feed aggregator state with an accumulated buy volume of 1000. -/
def demoFeedState : FeedState :=
  { connected := true
    stats := { buyVolume := 1000, sellVolume := 0, largeTradesCount := 0, liquidationsCount := 0 } }

/-! ## Theorems -/

/-- C10 counterexample: the claim fails at the empty-string message.  After
`setPendingChatMessage("")`, `consumePendingChatMessage` returns the stored
message but leaves it in place (the JavaScript truthiness guard skips
`removeItem`), so the immediately following consume returns the string
again rather than null and `hasPendingChatMessage` stays true. -/
theorem pending_message_empty_string_cex :
    (consumePendingChatMessage (setPendingChatMessage "" none)).2 = some "" ∧
    (consumePendingChatMessage
        (consumePendingChatMessage (setPendingChatMessage "" none)).2).1 = some "" ∧
    hasPendingChatMessage (consumePendingChatMessage (setPendingChatMessage "" none)).2 = true := by
  refine ⟨rfl, rfl, rfl⟩

/-- C10 amended: for every non-empty message, the store is a single-slot
consume-once buffer: after `setPendingChatMessage(m)` a pending message is
reported, consuming returns `m` and empties the slot, a second consume
returns null, and consuming an empty store returns null and leaves it
unchanged.  (For the empty-string message the consume returns the message
without removing it.) -/
theorem pending_message_consume_once (m : String) (s : Option String) (h : m ≠ "") :
    hasPendingChatMessage (setPendingChatMessage m s) = true ∧
    consumePendingChatMessage (setPendingChatMessage m s) = (some m, none) ∧
    hasPendingChatMessage (consumePendingChatMessage (setPendingChatMessage m s)).2 = false ∧
    (consumePendingChatMessage
        (consumePendingChatMessage (setPendingChatMessage m s)).2).1 = none ∧
    consumePendingChatMessage none = (none, none) := by
  simp [hasPendingChatMessage, setPendingChatMessage, consumePendingChatMessage, h]

/-- C10 witness: the amended theorem at the message `"hello"`. -/
theorem pending_message_consume_once_witness :
    hasPendingChatMessage (setPendingChatMessage "hello" none) = true ∧
    consumePendingChatMessage (setPendingChatMessage "hello" none) = (some "hello", none) ∧
    hasPendingChatMessage
        (consumePendingChatMessage (setPendingChatMessage "hello" none)).2 = false ∧
    (consumePendingChatMessage
        (consumePendingChatMessage (setPendingChatMessage "hello" none)).2).1 = none ∧
    consumePendingChatMessage none = (none, none) :=
  pending_message_consume_once "hello" none (by decide)

/-- C6: across a disconnect and reconnect the feed stats are preserved, and
a buy trade of notional 500 arriving after reconnection accumulates onto
the prior buy volume of 1000, giving 1500 rather than a reset 500. -/
theorem feed_stats_survive_reconnect (s : FeedState) (h : s.stats.buyVolume = 1000) :
    (stepFeed s FeedEvent.disconnect).stats = s.stats ∧
    (stepFeed (stepFeed s FeedEvent.disconnect) FeedEvent.reconnect).stats = s.stats ∧
    (stepFeed (stepFeed (stepFeed s FeedEvent.disconnect) FeedEvent.reconnect)
        (FeedEvent.trade TradeSide.buy 500 1)).stats.buyVolume = 1500 ∧
    (stepFeed (stepFeed (stepFeed s FeedEvent.disconnect) FeedEvent.reconnect)
        (FeedEvent.trade TradeSide.buy 500 1)).stats.buyVolume ≠ 500 := by
  refine ⟨rfl, rfl, ?_, ?_⟩
  · simp [stepFeed, applyFeedTrade, h]
    norm_num
  · simp [stepFeed, applyFeedTrade, h]

/-- C6 witness: the reconnect scenario at a concrete aggregator state. -/
theorem feed_stats_survive_reconnect_witness :
    (stepFeed demoFeedState FeedEvent.disconnect).stats = demoFeedState.stats ∧
    (stepFeed (stepFeed demoFeedState FeedEvent.disconnect) FeedEvent.reconnect).stats =
        demoFeedState.stats ∧
    (stepFeed (stepFeed (stepFeed demoFeedState FeedEvent.disconnect) FeedEvent.reconnect)
        (FeedEvent.trade TradeSide.buy 500 1)).stats.buyVolume = 1500 ∧
    (stepFeed (stepFeed (stepFeed demoFeedState FeedEvent.disconnect) FeedEvent.reconnect)
        (FeedEvent.trade TradeSide.buy 500 1)).stats.buyVolume ≠ 500 :=
  feed_stats_survive_reconnect demoFeedState rfl

/-- C8: a failed order book fetch stores the error string and leaves the
previously fetched book untouched; the full-screen error view appears only
when no book was ever fetched; the polling period is the 2000 ms interval. -/
theorem order_book_stale_while_error (s : PanelState) (msg : String) (now : ℚ) :
    (fetchOrderBookApply s (FetchOutcome.fail msg) now).orderbook = s.orderbook ∧
    (fetchOrderBookApply s (FetchOutcome.fail msg) now).error = some msg ∧
    (∀ ob : OrderBookData, s.orderbook = some ob →
        showsErrorView (fetchOrderBookApply s (FetchOutcome.fail msg) now) = false) ∧
    (∀ s2 : PanelState, showsErrorView s2 = true → s2.orderbook = none) ∧
    ORDER_BOOK_REFRESH_MS = 2000 := by
  refine ⟨rfl, rfl, ?_, ?_, rfl⟩
  · intro ob hob
    simp [showsErrorView, fetchOrderBookApply, hob]
  · intro s2 h2
    rcases hob : s2.orderbook with _ | ob
    · rfl
    · exfalso
      simp [showsErrorView, hob] at h2

/-- C8 witness: a failing fetch against a panel that already holds a book
keeps the book, records the message, and does not reach the full-screen
error view. -/
theorem order_book_stale_while_error_witness :
    (fetchOrderBookApply demoPanel (FetchOutcome.fail "boom") 5).orderbook =
        demoPanel.orderbook ∧
    showsErrorView (fetchOrderBookApply demoPanel (FetchOutcome.fail "boom") 5) = false ∧
    ORDER_BOOK_REFRESH_MS = 2000 := by
  have h := order_book_stale_while_error demoPanel "boom" 5
  exact ⟨h.1, h.2.2.1 demoOrderBook rfl, h.2.2.2.2⟩

/-- Field-by-field description of the `getAggrStats` trade loop: the fold
adds the buy-side and sell-side notionals to the respective volumes, their
sum to the total, and one whale count per trade at or above 500000. -/
theorem foldl_stepTrade_fields (trades : List LargeTrade) (s : AggrStats) :
    (trades.foldl stepTrade s).buyVolume = s.buyVolume + buyNotional trades ∧
    (trades.foldl stepTrade s).sellVolume = s.sellVolume + sellNotional trades ∧
    (trades.foldl stepTrade s).totalVolumeUsd =
        s.totalVolumeUsd + buyNotional trades + sellNotional trades ∧
    (trades.foldl stepTrade s).whaleTradesCount = s.whaleTradesCount + whaleCountOf trades := by
  induction trades generalizing s with
  | nil => simp [buyNotional, sellNotional, whaleCountOf]
  | cons t ts ih =>
    obtain ⟨h1, h2, h3, h4⟩ := ih (stepTrade s t)
    refine ⟨?_, ?_, ?_, ?_⟩
    · rw [List.foldl_cons, h1, buyNotional]
      by_cases hb : t.side = TradeSide.buy <;> simp [stepTrade, hb, add_assoc]
    · rw [List.foldl_cons, h2, sellNotional]
      by_cases hb : t.side = TradeSide.buy <;> simp [stepTrade, hb, add_assoc]
    · rw [List.foldl_cons, h3, buyNotional, sellNotional]
      by_cases hb : t.side = TradeSide.buy
      · simp [stepTrade, hb, add_assoc]
      · simp [stepTrade, hb, add_assoc]
        ring
    · rw [List.foldl_cons, h4, whaleCountOf]
      by_cases hw : (500000 : ℚ) ≤ t.value_usd <;> simp [stepTrade, hw, add_assoc]

/-- C7: after the `getAggrStats` loop processes any trade list, `buyVolume`
is the sum of buy-side notionals, `sellVolume` the sum of sell-side
notionals, and their sum equals `totalVolumeUsd`. -/
theorem aggr_volume_conservation (trades : List LargeTrade) (largeCount liqCount : Nat)
    (now : String) :
    (statsFromTrades trades largeCount liqCount now).buyVolume = buyNotional trades ∧
    (statsFromTrades trades largeCount liqCount now).sellVolume = sellNotional trades ∧
    (statsFromTrades trades largeCount liqCount now).buyVolume +
        (statsFromTrades trades largeCount liqCount now).sellVolume =
      (statsFromTrades trades largeCount liqCount now).totalVolumeUsd := by
  obtain ⟨h1, h2, h3, -⟩ := foldl_stepTrade_fields trades (baseStats largeCount liqCount now)
  refine ⟨?_, ?_, ?_⟩
  · show (trades.foldl stepTrade (baseStats largeCount liqCount now)).buyVolume =
        buyNotional trades
    rw [h1]
    simp [baseStats]
  · show (trades.foldl stepTrade (baseStats largeCount liqCount now)).sellVolume =
        sellNotional trades
    rw [h2]
    simp [baseStats]
  · show (trades.foldl stepTrade (baseStats largeCount liqCount now)).buyVolume +
          (trades.foldl stepTrade (baseStats largeCount liqCount now)).sellVolume =
        (trades.foldl stepTrade (baseStats largeCount liqCount now)).totalVolumeUsd
    rw [h1, h2, h3]
    simp [baseStats]

/-- C2 counterexample: against the `getAggrStats` loop, the spec test
vector with notionals 100, 600000 and 1200000 produces a whale count of 2
(both 600000 and 1200000 clear the single 500000 threshold) and a large
count of 3 (every parsed trade), so there is neither exactly one whale nor
exactly one large-only trade. -/
theorem aggr_whale_threshold_cex :
    (statsFromTrades demoNotionalTrades 0 0 "").whaleTradesCount = 2 ∧
    (statsFromTrades demoNotionalTrades 0 0 "").whaleTradesCount ≠ 1 ∧
    (statsFromTrades demoNotionalTrades 0 0 "").largeTradesCount = 3 := by
  refine ⟨by decide, by decide, by decide⟩

/-- C2 amended: `getAggrStats` classifies with a single fixed threshold —
`whaleTradesCount` counts the trades whose notional reaches 500000 and
`largeTradesCount` is the total number of parsed trades; there is no
separate 1000000 threshold, so the spec vector yields counts 2 and 3. -/
theorem aggr_single_threshold_classification (trades : List LargeTrade)
    (largeCount liqCount : Nat) (now : String) :
    (statsFromTrades trades largeCount liqCount now).whaleTradesCount = whaleCountOf trades ∧
    (statsFromTrades trades largeCount liqCount now).largeTradesCount = trades.length := by
  obtain ⟨-, -, -, h4⟩ := foldl_stepTrade_fields trades (baseStats largeCount liqCount now)
  constructor
  · show (trades.foldl stepTrade (baseStats largeCount liqCount now)).whaleTradesCount =
        whaleCountOf trades
    rw [h4]
    simp [baseStats]
  · show trades.length = trades.length
    rfl

/-- A file that cannot be read parses to the empty list. -/
theorem parseJsonlFile_of_unreadable {α : Type} (parse : String → Option α) (fs : FileSys)
    (path : String) (h : fs.fileContent path = none) :
    parseJsonlFile parse fs path = [] := by
  simp [parseJsonlFile, h]

/-- A file that cannot be read counts zero lines. -/
theorem countLines_of_unreadable (fs : FileSys) (path : String)
    (h : fs.fileContent path = none) : countLines fs path = 0 := by
  simp [countLines, h]

/-- When every file is unreadable the collection loop of the list
endpoints returns its accumulator unchanged. -/
theorem collectJsonl_of_unreadable {α : Type} (fs : FileSys) (parse : String → Option α)
    (limit : Nat) (h : ∀ p, fs.fileContent p = none) :
    ∀ (files : List String) (acc : List α), collectJsonl fs parse limit files acc = acc := by
  intro files
  induction files with
  | nil => intro acc; rfl
  | cons f rest ih =>
    intro acc
    rw [collectJsonl]
    by_cases hl : limit ≤ acc.length
    · rw [if_pos hl]
    · rw [if_neg hl, parseJsonlFile_of_unreadable parse fs f (h f), List.append_nil]
      exact ih acc

/-- When the directory listing fails, `getAggrStats` returns the all-zero
record. -/
theorem getAggrStats_of_nodir (fs : FileSys) (parse : String → Option LargeTrade)
    (now : String) (h : fs.dirFiles = none) :
    getAggrStats fs parse now = baseStats 0 0 now := by
  simp [getAggrStats, h]

/-- When every file is unreadable, `getAggrStats` returns the all-zero
record. -/
theorem getAggrStats_of_unreadable (fs : FileSys) (parse : String → Option LargeTrade)
    (now : String) (h : ∀ p, fs.fileContent p = none) :
    getAggrStats fs parse now = baseStats 0 0 now := by
  have hc : ∀ f, countLines fs f = 0 := fun f => countLines_of_unreadable fs f (h f)
  have hp : ∀ f, parseJsonlFile parse fs f = [] :=
    fun f => parseJsonlFile_of_unreadable parse fs f (h f)
  simp only [getAggrStats]
  rcases hT : ((fs.dirFiles.getD []).filter (fun f => f.startsWith "large_trades_")).getLast? with
      _ | latest <;>
    rcases hL :
        ((fs.dirFiles.getD []).filter (fun f => f.startsWith "liquidations_")).getLast? with
      _ | lf <;>
    simp [hT, hL, hc, hp, statsFromTrades, baseStats]

/-- With missing or unreadable data, `getLargeTrades` is empty. -/
theorem getLargeTrades_of_missing (fs : FileSys) (parse : String → Option LargeTrade)
    (dateMs : String → Int) (limit : Nat) (symbol : Option String)
    (h : fs.dirFiles = none ∨ ∀ p, fs.fileContent p = none) :
    getLargeTrades fs parse dateMs limit symbol = [] := by
  rcases h with h | h
  · cases symbol <;> simp [getLargeTrades, h, sortStringsAsc, sortDescBy, collectJsonl]
  · have hcol := collectJsonl_of_unreadable fs parse limit h
    cases symbol <;> simp [getLargeTrades, hcol, sortDescBy]

/-- With missing or unreadable data, `getLiquidations` is empty. -/
theorem getLiquidations_of_missing (fs : FileSys) (parse : String → Option Liquidation)
    (dateMs : String → Int) (limit : Nat) (symbol : Option String)
    (h : fs.dirFiles = none ∨ ∀ p, fs.fileContent p = none) :
    getLiquidations fs parse dateMs limit symbol = [] := by
  rcases h with h | h
  · cases symbol <;> simp [getLiquidations, h, sortStringsAsc, sortDescBy, collectJsonl]
  · have hcol := collectJsonl_of_unreadable fs parse limit h
    cases symbol <;> simp [getLiquidations, hcol, sortDescBy]

/-- With missing or unreadable data, `getTrainingExamples` is empty. -/
theorem getTrainingExamples_of_missing {α : Type} (fs : FileSys) (parse : String → Option α)
    (limit : Nat) (h : fs.dirFiles = none ∨ ∀ p, fs.fileContent p = none) :
    getTrainingExamples fs parse limit = [] := by
  rcases h with h | h
  · simp [getTrainingExamples, h, sortStringsAsc, collectJsonl]
  · have hcol := collectJsonl_of_unreadable fs parse limit h
    simp [getTrainingExamples, hcol]

/-- C9: when the aggr data directory is absent or its files are
unreadable, every endpoint action degrades to zeroed or empty defaults:
`getAggrStats` returns the all-zero record, the three list actions return
empty lists, and `parseJsonlFile` yields the empty list on any read
failure. -/
theorem aggr_missing_data_defaults {α : Type} (fs : FileSys)
    (parseT : String → Option LargeTrade) (parseL : String → Option Liquidation)
    (parseA : String → Option α) (dateMs : String → Int) (limit : Nat)
    (symbol : Option String) (now : String)
    (h : fs.dirFiles = none ∨ ∀ p, fs.fileContent p = none) :
    getAggrStats fs parseT now = baseStats 0 0 now ∧
    getLargeTrades fs parseT dateMs limit symbol = [] ∧
    getLiquidations fs parseL dateMs limit symbol = [] ∧
    getTrainingExamples fs parseA limit = [] ∧
    ∀ path, fs.fileContent path = none → parseJsonlFile parseT fs path = [] := by
  refine ⟨?_, getLargeTrades_of_missing fs parseT dateMs limit symbol h,
    getLiquidations_of_missing fs parseL dateMs limit symbol h,
    getTrainingExamples_of_missing fs parseA limit h,
    fun path hp => parseJsonlFile_of_unreadable parseT fs path hp⟩
  rcases h with h | h
  · exact getAggrStats_of_nodir fs parseT now h
  · exact getAggrStats_of_unreadable fs parseT now h

/-- C9 witness: the defaults at a concrete failing file system. -/
theorem aggr_missing_data_defaults_witness :
    getAggrStats fsEmpty (fun _ => none) "t" = baseStats 0 0 "t" ∧
    getLargeTrades fsEmpty (fun _ => none) (fun _ => 0) 50 none = [] ∧
    getLiquidations fsEmpty (fun _ => none) (fun _ => 0) 50 none = [] ∧
    getTrainingExamples fsEmpty (fun _ => (none : Option Nat)) 50 = [] ∧
    parseJsonlFile (fun _ => (none : Option LargeTrade)) fsEmpty "large_trades_a.jsonl" = [] := by
  have h := aggr_missing_data_defaults fsEmpty (fun _ => none) (fun _ => none)
    (fun _ => (none : Option Nat)) (fun _ => 0) 50 none "t" (Or.inl rfl)
  exact ⟨h.1, h.2.1, h.2.2.1, h.2.2.2.1, h.2.2.2.2 "large_trades_a.jsonl" rfl⟩

/-- C4: `indexToX` is affine over the `totalBars` slots — candle count plus
26 projection slots when indicators are shown — so the span from the first
to the last slot is chart width times `(N - 1) / N`. -/
theorem index_to_x_affine (candles : List Candle) (showIchimoku : Bool) (width : ℚ)
    (h : 1 ≤ totalBarsOf candles showIchimoku) :
    indexToX width (totalBarsOf candles showIchimoku) (totalBarsOf candles showIchimoku - 1) -
        indexToX width (totalBarsOf candles showIchimoku) 0 =
      chartWidthOf width * ((totalBarsOf candles showIchimoku : ℚ) - 1) /
        (totalBarsOf candles showIchimoku : ℚ) := by
  unfold indexToX candleSpacingOf
  push_cast [Nat.cast_sub h]
  ring

/-- C1 counterexample: for the non-empty flat candle sequence at price
100 the computed padded price range is zero — no minimum 1-unit range is
substituted — and with a zero range `priceToY` is degenerate, collapsing
the distinct prices 50 and 200 onto the same `y` (rational division by
zero is total here; the JavaScript original divides by zero outright). -/
theorem price_to_y_zero_range_cex :
    priceEnvOf [flatCandle 100] false [] [] = some (100, 100, 0) ∧
    priceToY 100 0 350 50 = priceToY 100 0 350 200 ∧
    (50 : ℚ) ≠ 200 := by
  refine ⟨by norm_num [priceEnvOf, allPricesOf, flatCandle, listMinQ, listMaxQ],
    by norm_num [priceToY, chartPaddingTop], by norm_num⟩

/-- C1 amended: the vertical padding is 10 percent of the visible price
range on each end (symmetric), but no minimum range is substituted when
the range is zero: whenever the price extrema exist, the padded bounds are
exactly `min - range / 10` and `max + range / 10`; for a positive range
`priceToY` is strictly decreasing in price (non-degenerate), while for a
zero range it is constant (degenerate). -/
theorem price_to_y_padding (candles : List Candle) (showIchimoku : Bool)
    (ichimokuData : List IchimokuPoint) (futureCloud : List FutureCloudPoint) (minP maxP : ℚ)
    (hmin : listMinQ ((allPricesOf candles showIchimoku ichimokuData futureCloud).filter
        (fun p => 0 < p)) = some minP)
    (hmax : listMaxQ (allPricesOf candles showIchimoku ichimokuData futureCloud) = some maxP) :
    priceEnvOf candles showIchimoku ichimokuData futureCloud =
        some (minP - (maxP - minP) * (1 / 10), maxP + (maxP - minP) * (1 / 10),
          (maxP + (maxP - minP) * (1 / 10)) - (minP - (maxP - minP) * (1 / 10))) ∧
    (maxP + (maxP - minP) * (1 / 10)) - maxP = minP - (minP - (maxP - minP) * (1 / 10)) ∧
    (minP < maxP → ∀ H p q : ℚ, 0 < H → p < q →
        priceToY (maxP + (maxP - minP) * (1 / 10))
            ((maxP + (maxP - minP) * (1 / 10)) - (minP - (maxP - minP) * (1 / 10))) H q <
          priceToY (maxP + (maxP - minP) * (1 / 10))
            ((maxP + (maxP - minP) * (1 / 10)) - (minP - (maxP - minP) * (1 / 10))) H p) ∧
    (minP = maxP → ∀ H p q : ℚ,
        priceToY (maxP + (maxP - minP) * (1 / 10))
            ((maxP + (maxP - minP) * (1 / 10)) - (minP - (maxP - minP) * (1 / 10))) H p =
          priceToY (maxP + (maxP - minP) * (1 / 10))
            ((maxP + (maxP - minP) * (1 / 10)) - (minP - (maxP - minP) * (1 / 10))) H q) := by
  refine ⟨by simp [priceEnvOf, hmin, hmax], by ring, ?_, ?_⟩
  · intro hlt H p q hH hpq
    have hR : (0 : ℚ) <
        (maxP + (maxP - minP) * (1 / 10)) - (minP - (maxP - minP) * (1 / 10)) := by
      linarith
    unfold priceToY
    have hnum : (maxP + (maxP - minP) * (1 / 10)) - q <
        (maxP + (maxP - minP) * (1 / 10)) - p := by linarith
    exact add_lt_add_left
      (mul_lt_mul_of_pos_right ((div_lt_div_iff_of_pos_right hR).mpr hnum) hH) chartPaddingTop
  · intro hEq H p q
    subst hEq
    simp [priceToY]

/-- C1 witness: the amended theorem at one candle spanning 90 to 110,
viewport height 350 — the higher price 105 maps strictly below 100. -/
theorem price_to_y_padding_witness :
    priceToY ((110 : ℚ) + (110 - 90) * (1 / 10))
        (((110 : ℚ) + (110 - 90) * (1 / 10)) - (90 - (110 - 90) * (1 / 10))) 350 105 <
      priceToY ((110 : ℚ) + (110 - 90) * (1 / 10))
        (((110 : ℚ) + (110 - 90) * (1 / 10)) - (90 - (110 - 90) * (1 / 10))) 350 100 := by
  have h := price_to_y_padding [demoRangeCandle] false [] [] 90 110
    (by norm_num [allPricesOf, listMinQ, demoRangeCandle])
    (by norm_num [allPricesOf, listMaxQ, demoRangeCandle])
  exact h.2.2.1 (by norm_num) 350 100 105 (by norm_num) (by norm_num)

/-- A left fold of `max` lands on its seed or on a list element. -/
theorem foldl_max_mem (xs : List ℚ) : ∀ x : ℚ, xs.foldl max x = x ∨ xs.foldl max x ∈ xs := by
  induction xs with
  | nil => intro x; left; rfl
  | cons y ys ih =>
    intro x
    rcases ih (max x y) with h | h
    · rcases max_choice x y with hm | hm
      · left; rw [List.foldl_cons, h, hm]
      · right; rw [List.foldl_cons, h, hm]; exact List.mem_cons_self y ys
    · right; rw [List.foldl_cons]; exact List.mem_cons_of_mem y h

/-- A left fold of `min` lands on its seed or on a list element. -/
theorem foldl_min_mem (xs : List ℚ) : ∀ x : ℚ, xs.foldl min x = x ∨ xs.foldl min x ∈ xs := by
  induction xs with
  | nil => intro x; left; rfl
  | cons y ys ih =>
    intro x
    rcases ih (min x y) with h | h
    · rcases min_choice x y with hm | hm
      · left; rw [List.foldl_cons, h, hm]
      · right; rw [List.foldl_cons, h, hm]; exact List.mem_cons_self y ys
    · right; rw [List.foldl_cons]; exact List.mem_cons_of_mem y h

/-- The computed maximum of a list is a member of the list. -/
theorem listMaxQ_mem {l : List ℚ} {v : ℚ} (h : listMaxQ l = some v) : v ∈ l := by
  cases l with
  | nil => cases h
  | cons x xs =>
    simp only [listMaxQ, Option.some.injEq] at h
    subst h
    rcases foldl_max_mem xs x with h2 | h2
    · rw [h2]; exact List.mem_cons_self x xs
    · exact List.mem_cons_of_mem x h2

/-- The computed minimum of a list is a member of the list. -/
theorem listMinQ_mem {l : List ℚ} {v : ℚ} (h : listMinQ l = some v) : v ∈ l := by
  cases l with
  | nil => cases h
  | cons x xs =>
    simp only [listMinQ, Option.some.injEq] at h
    subst h
    rcases foldl_min_mem xs x with h2 | h2
    · rw [h2]; exact List.mem_cons_self x xs
    · exact List.mem_cons_of_mem x h2

/-- Every window value comes from some candle of the sequence. -/
theorem windowVals_from_candles {f : Candle → ℚ} {candles : List Candle} {i w : Nat} {v : ℚ}
    (h : v ∈ windowVals f candles i w) : ∃ c ∈ candles, f c = v := by
  simp only [windowVals, List.mem_map] at h
  rcases h with ⟨c, hc, hfc⟩
  exact ⟨c, List.take_subset _ _ (List.drop_subset _ _ hc), hfc⟩

/-- Over a flat candle sequence every defined rolling midpoint equals the
flat price. -/
theorem rollingMid_flat {candles : List Candle} {q : ℚ}
    (hflat : ∀ c ∈ candles, c = flatCandle q) {i w : Nat} {m : ℚ}
    (h : rollingMid candles i w = some m) : m = q := by
  unfold rollingMid at h
  by_cases hw : w ≤ i + 1
  · rw [if_pos hw] at h
    rcases hmax : listMaxQ (windowVals Candle.high candles i w) with _ | hi
    · rw [hmax] at h; cases h
    · rcases hmin : listMinQ (windowVals Candle.low candles i w) with _ | lo
      · rw [hmax, hmin] at h; cases h
      · rw [hmax, hmin] at h
        obtain ⟨c1, hc1, he1⟩ := windowVals_from_candles (listMaxQ_mem hmax)
        obtain ⟨c2, hc2, he2⟩ := windowVals_from_candles (listMinQ_mem hmin)
        have e1 : hi = q := by rw [← he1, hflat c1 hc1]; rfl
        have e2 : lo = q := by rw [← he2, hflat c2 hc2]; rfl
        simp only [Option.some.injEq] at h
        rw [← h, e1, e2]
        ring
  · rw [if_neg hw] at h; cases h

/-- When both spans of an Ichimoku point exist, its cloud fields are their
max, their min, and the tie-bullish colour comparison. -/
theorem mk_cloud_fields (candles : List Candle) (cfg : IchimokuConfig) (i : Nat) {a b : ℚ}
    (ha : (mkIchimokuPoint candles cfg i).senkouSpanA = some a)
    (hb : (mkIchimokuPoint candles cfg i).senkouSpanB = some b) :
    (mkIchimokuPoint candles cfg i).cloudTop = some (max a b) ∧
    (mkIchimokuPoint candles cfg i).cloudBottom = some (min a b) ∧
    ((mkIchimokuPoint candles cfg i).cloudColor = some CloudColor.bullish ↔ b ≤ a) := by
  simp only [mkIchimokuPoint] at ha hb ⊢
  rcases hT : rollingMid candles i cfg.conversionPeriods with _ | t <;>
    rcases hK : rollingMid candles i cfg.basePeriods with _ | k <;>
    rcases hB : rollingMid candles i cfg.spanBPeriods with _ | b0 <;>
    simp only [hT, hK, hB] at ha hb ⊢ <;>
    first
      | exact Option.noConfusion ha
      | exact Option.noConfusion hb
      | skip
  simp only [Option.some.injEq] at ha hb
  subst ha
  subst hb
  refine ⟨rfl, rfl, ?_⟩
  split_ifs with hc <;> simp [hc]

/-- Whenever both cloud bounds of an Ichimoku point exist, the bottom is
at most the top. -/
theorem mk_cloud_order (candles : List Candle) (cfg : IchimokuConfig) (i : Nat) {t bo : ℚ}
    (ht : (mkIchimokuPoint candles cfg i).cloudTop = some t)
    (hbo : (mkIchimokuPoint candles cfg i).cloudBottom = some bo) : bo ≤ t := by
  simp only [mkIchimokuPoint] at ht hbo
  rcases hT : rollingMid candles i cfg.conversionPeriods with _ | t0 <;>
    rcases hK : rollingMid candles i cfg.basePeriods with _ | k <;>
    rcases hB : rollingMid candles i cfg.spanBPeriods with _ | b0 <;>
    simp only [hT, hK, hB] at ht hbo <;>
    first
      | exact Option.noConfusion ht
      | exact Option.noConfusion hbo
      | skip
  simp only [Option.some.injEq] at ht hbo
  subst ht
  subst hbo
  exact min_le_max

/-- Over a flat candle sequence, an Ichimoku point has equal computed
spans and its computed cloud colour is bullish. -/
theorem mk_flat (candles : List Candle) (cfg : IchimokuConfig) (i : Nat) (q : ℚ)
    (hflat : ∀ c ∈ candles, c = flatCandle q) :
    (∀ a b, (mkIchimokuPoint candles cfg i).senkouSpanA = some a →
        (mkIchimokuPoint candles cfg i).senkouSpanB = some b → a = b) ∧
    (∀ col, (mkIchimokuPoint candles cfg i).cloudColor = some col →
        col = CloudColor.bullish) := by
  simp only [mkIchimokuPoint]
  rcases hT : rollingMid candles i cfg.conversionPeriods with _ | t <;>
    rcases hK : rollingMid candles i cfg.basePeriods with _ | k <;>
    rcases hB : rollingMid candles i cfg.spanBPeriods with _ | b0 <;>
    simp only [hT, hK, hB] <;>
    refine ⟨fun a b ha hb => ?_, fun col hcol => ?_⟩ <;>
    first
      | exact Option.noConfusion ha
      | exact Option.noConfusion hb
      | exact Option.noConfusion hcol
      | skip
  · have et := rollingMid_flat hflat hT
    have ek := rollingMid_flat hflat hK
    have eb := rollingMid_flat hflat hB
    rw [← Option.some.inj ha, ← Option.some.inj hb, et, ek, eb]
    ring
  · have et := rollingMid_flat hflat hT
    have ek := rollingMid_flat hflat hK
    have eb := rollingMid_flat hflat hB
    rw [et, ek, eb] at hcol
    have e : (q + q) / 2 = q := by ring
    rw [e] at hcol
    rw [if_pos (le_refl q)] at hcol
    exact (Option.some.inj hcol).symm

/-- C5: for every point of the Ichimoku output, when both spans exist the
cloud top and bottom are their max and min (so top is at least bottom) and
the colour is bullish exactly when span A is at least span B; over a flat
candle sequence the computed spans coincide and every computed colour is
bullish. -/
theorem ichimoku_cloud_invariants (candles : List Candle) (cfg : IchimokuConfig)
    (p : IchimokuPoint) (hp : p ∈ calculateIchimoku candles cfg) :
    (∀ a b, p.senkouSpanA = some a → p.senkouSpanB = some b →
        p.cloudTop = some (max a b) ∧ p.cloudBottom = some (min a b) ∧
        (p.cloudColor = some CloudColor.bullish ↔ b ≤ a)) ∧
    (∀ t bo, p.cloudTop = some t → p.cloudBottom = some bo → bo ≤ t) ∧
    (∀ q, (∀ c ∈ candles, c = flatCandle q) →
        (∀ a b, p.senkouSpanA = some a → p.senkouSpanB = some b → a = b) ∧
        (∀ col, p.cloudColor = some col → col = CloudColor.bullish)) := by
  by_cases hlen : candles.length < cfg.spanBPeriods
  · rw [calculateIchimoku, if_pos hlen] at hp
    exact absurd hp (List.not_mem_nil p)
  · rw [calculateIchimoku, if_neg hlen] at hp
    rcases List.mem_map.mp hp with ⟨i, -, rfl⟩
    exact ⟨fun a b ha hb => mk_cloud_fields candles cfg i ha hb,
      fun t bo ht hbo => mk_cloud_order candles cfg i ht hbo,
      fun q hflat => mk_flat candles cfg i q hflat⟩

/-- C5 witness: the invariants evaluated on four flat candles at price 100
with a small configuration — both cloud bounds are 100 and the colour is
bullish. -/
theorem ichimoku_cloud_invariants_witness :
    demoPoint3.cloudTop = some (max (100 : ℚ) 100) ∧
    demoPoint3.cloudBottom = some (min (100 : ℚ) 100) ∧
    demoPoint3.cloudColor = some CloudColor.bullish := by
  have hmem : demoPoint3 ∈ calculateIchimoku demoFlat4 demoCfg := by
    rw [calculateIchimoku, if_neg (by norm_num [demoFlat4, demoCfg])]
    exact List.mem_map.mpr ⟨3, by simp [demoFlat4], rfl⟩
  have hA : demoPoint3.senkouSpanA = some 100 := by
    norm_num [demoPoint3, mkIchimokuPoint, rollingMid, windowVals, demoFlat4, demoCfg,
      flatCandle, listMaxQ, listMinQ, List.replicate]
  have hB : demoPoint3.senkouSpanB = some 100 := by
    norm_num [demoPoint3, mkIchimokuPoint, rollingMid, windowVals, demoFlat4, demoCfg,
      flatCandle, listMaxQ, listMinQ, List.replicate]
  obtain ⟨h1, -, -⟩ := ichimoku_cloud_invariants demoFlat4 demoCfg demoPoint3 hmem
  obtain ⟨ht, hbo, hiff⟩ := h1 100 100 hA hB
  exact ⟨ht, hbo, hiff.mpr (le_refl 100)⟩

/-- C3: any non-empty candle history shorter than 52 yields empty
indicator and future-cloud results (the memo guards return before calling
the computation), and the draw pass then emits no overlay layer — no cloud
rects, no tenkan, kijun or chikou line — while still emitting one body per
candle. -/
theorem short_history_renders_candles_only (candles : List Candle) (showIchimoku : Bool)
    (h1 : candles ≠ []) (h2 : candles.length < 52) :
    ichimokuDataMemo showIchimoku candles = [] ∧
    futureCloudMemo showIchimoku candles = [] ∧
    ∃ plan : RenderPlan,
      drawChart candles showIchimoku (ichimokuDataMemo showIchimoku candles)
          (futureCloudMemo showIchimoku candles) = some plan ∧
        plan.futureCloudRects = [] ∧ plan.cloudRects = [] ∧
        plan.tenkanDrawn = false ∧ plan.kijunDrawn = false ∧ plan.chikouDrawn = false ∧
        plan.candleShapes.length = candles.length := by
  have hA : ichimokuDataMemo showIchimoku candles = [] := by
    simp [ichimokuDataMemo, h2]
  have hB : futureCloudMemo showIchimoku candles = [] := by
    simp [futureCloudMemo, h2]
  refine ⟨hA, hB, ?_⟩
  rw [hA, hB]
  rcases candles with _ | ⟨c, cs⟩
  · exact absurd rfl h1
  · refine ⟨_, rfl, ?_, ?_, ?_, ?_, ?_, ?_⟩ <;> simp [drawChart]

/-- C3 witness: three flat candles with indicators enabled draw three
bodies and nothing else. -/
theorem short_history_renders_candles_only_witness :
    ichimokuDataMemo true demoThreeCandles = [] ∧
    futureCloudMemo true demoThreeCandles = [] ∧
    ∃ plan : RenderPlan,
      drawChart demoThreeCandles true (ichimokuDataMemo true demoThreeCandles)
          (futureCloudMemo true demoThreeCandles) = some plan ∧
        plan.futureCloudRects = [] ∧ plan.cloudRects = [] ∧
        plan.tenkanDrawn = false ∧ plan.kijunDrawn = false ∧ plan.chikouDrawn = false ∧
        plan.candleShapes.length = demoThreeCandles.length :=
  short_history_renders_candles_only demoThreeCandles true (by decide) (by decide)

/-- C4 witness: three candles without indicators give three slots over an
800-wide viewport, and the first-to-last span is 700 times 2 / 3. -/
theorem index_to_x_affine_witness :
    indexToX 800 (totalBarsOf demoThreeCandles false) (totalBarsOf demoThreeCandles false - 1) -
        indexToX 800 (totalBarsOf demoThreeCandles false) 0 =
      chartWidthOf 800 * ((totalBarsOf demoThreeCandles false : ℚ) - 1) /
        (totalBarsOf demoThreeCandles false : ℚ) :=
  index_to_x_affine demoThreeCandles false 800 (by decide)
